import Mathlib

/-!
Verification of the esxi-lab-provider orchestration pipeline and VPN
key-registration protocol, as a shallow embedding of the Go source.

Conventions used throughout:
* Go strings are Lean `String`s; where index arithmetic matters the
  embedding works on `List Char` (`String.data`), which agrees with Go's
  byte slicing on the inputs at hand because every delimiter involved is
  a one-byte character and both endpoints of every slice come from the
  same enumeration.
* Fallible Go calls (`(T, error)`) are `Except String T`.
* External collaborators (the OPNsense gateway, vCenter, SMTP) are
  modelled as explicit state-passing interfaces or response oracles,
  mirroring the Go interfaces in `service/interfaces.go`; the pipeline
  functions themselves are translated line by line from the source.
* Go `time.Time` values are modelled as `Int` instants (only order is
  ever used by the source).
-/

namespace EsxiLab

/-! ## VPN gateway data model (service/wireguard.go) -/

/-- `PeerRow` from the OPNsense search response: uuid, name, pubkey,
tunneladdress, servers. -/
structure PeerRow where
  UUID : String
  Name : String
  PubKey : String
  TunnelAddress : String
  Servers : String
  deriving DecidableEq, Repr

/-- Whitespace trim on a character list, both ends
(Go `strings.TrimSpace`). -/
def trimSpace (l : List Char) : List Char :=
  ((l.dropWhile Char.isWhitespace).reverse.dropWhile Char.isWhitespace).reverse

/-- `normalizeTunnelAddress`: trim whitespace, then strip everything from
the first `/` on (the CIDR suffix), so that addresses from different
sources compare reliably. -/
def normalizeTunnelAddress (addr : String) : String :=
  String.mk ((trimSpace addr.data).takeWhile (fun c => c ≠ '/'))

/-- The row-matching core of `SearchPeerByTunnelAddress`: the first row
whose normalized tunnel address equals the normalized target. -/
def searchRows (rows : List PeerRow) (tunnelAddress : String) : Option PeerRow :=
  rows.find? (fun row =>
    normalizeTunnelAddress row.TunnelAddress = normalizeTunnelAddress tunnelAddress)

/-- The JSON `client` payload built by `UpdatePeer`: every field listed
here is always submitted; in particular `servers` is always present. -/
def updatePeerPayload (name publicKey tunnelAddress servers : String) :
    List (String × String) :=
  [("enabled", "1"), ("name", name), ("pubkey", publicKey),
   ("tunneladdress", tunnelAddress), ("servers", servers)]

/-- The JSON `client` payload built by `CreatePeer` (keepalive only when
positive). -/
def createPeerPayload (name publicKey tunnelAddress : String) (keepalive : Int) :
    List (String × String) :=
  [("enabled", "1"), ("name", name), ("pubkey", publicKey),
   ("tunneladdress", tunnelAddress)] ++
  (if keepalive > 0 then [("keepalive", toString keepalive)] else [])

/-- One observable call made to the OPNsense gateway. -/
inductive GwCall where
  | search (tunnelAddress : String)
  | update (uuid : String) (payload : List (String × String))
  | create (payload : List (String × String))
  deriving DecidableEq, Repr

/-- The `OPNsenseAPI` interface from `service/interfaces.go`, as explicit
state-passing operations over a gateway state `σ`. -/
structure OPNsenseAPI (σ : Type) where
  searchPeerByTunnelAddress : String → σ → Except String (Option PeerRow) × σ
  updatePeer : String → String → String → String → String → σ → Except String Unit × σ
  createPeer : String → String → String → Int → σ → Except String Unit × σ

/-- The distinct error outcomes of `RegisterPeerWithOPNsense`.  Each
constructor corresponds to one distinct `fmt.Errorf` site in the source;
`searchFailed`, `updateFailed` and `verifySearchFailed` wrap a
request-level transport error, while `peerDisappeared`, `keyMismatch` and
`noExistingPeer` are the protocol-level hard errors. -/
inductive RegError where
  | clientNotConfigured
  | invalidUserIndex (i : Int)
  | searchFailed (e : String)
  | updateFailed (uuid tunnelAddress e : String)
  | verifySearchFailed (e : String)
  | peerDisappeared (tunnelAddress : String)
  | keyMismatch (gatewayHas expected uuid : String)
  | noExistingPeer (tunnelAddress : String)
  deriving DecidableEq, Repr

/-- The WireGuard feature configuration fields consumed by peer
registration (the remaining `WireGuardConfig` fields do not reach
`RegisterPeerWithOPNsense` and are omitted). -/
structure WireGuardConfig where
  Enabled : Bool
  ClientAddresses : List String
  Keepalive : Int
  AutoRegisterPeers : Bool
  deriving Repr

/-- `WireGuardService.RegisterPeerWithOPNsense`, translated line by line:
return success immediately when auto-registration is disabled; require a
configured client and an in-range user index; look up the existing peer
by the user's configured tunnel address; a missing peer is a hard error
(no peer is ever created); otherwise update the peer's public key,
preserving its name (username fallback when empty) and its `Servers`
attachment, then re-query the same tunnel address and require the peer to
still exist with exactly the written key. -/
def RegisterPeerWithOPNsense {σ : Type} (api? : Option (OPNsenseAPI σ))
    (cfg : WireGuardConfig) (username publicKey : String) (userIndex : Int)
    (s : σ) : Except RegError Unit × σ :=
  if ¬cfg.AutoRegisterPeers then (Except.ok (), s)
  else match api? with
  | none => (Except.error RegError.clientNotConfigured, s)
  | some client =>
    if userIndex < 0 ∨ userIndex ≥ cfg.ClientAddresses.length then
      (Except.error (RegError.invalidUserIndex userIndex), s)
    else
      let tunnelAddress := cfg.ClientAddresses.getD userIndex.toNat ""
      match client.searchPeerByTunnelAddress tunnelAddress s with
      | (Except.error e, s1) => (Except.error (RegError.searchFailed e), s1)
      | (Except.ok (some existing), s1) =>
        let peerName := if existing.Name = "" then username else existing.Name
        match client.updatePeer existing.UUID peerName publicKey tunnelAddress
            existing.Servers s1 with
        | (Except.error e, s2) =>
          (Except.error (RegError.updateFailed existing.UUID tunnelAddress e), s2)
        | (Except.ok _, s2) =>
          match client.searchPeerByTunnelAddress tunnelAddress s2 with
          | (Except.error e, s3) => (Except.error (RegError.verifySearchFailed e), s3)
          | (Except.ok none, s3) =>
            (Except.error (RegError.peerDisappeared tunnelAddress), s3)
          | (Except.ok (some updated), s3) =>
            if updated.PubKey ≠ publicKey then
              (Except.error (RegError.keyMismatch updated.PubKey publicKey existing.UUID), s3)
            else (Except.ok (), s3)
      | (Except.ok none, s1) =>
        (Except.error (RegError.noExistingPeer tunnelAddress), s1)

/-! ### Gateway instances

`ScriptedGw` replays a fixed list of responses and records every call —
the analogue of the mock clients in the Go tests, able to model a
misbehaving appliance.  `ServerGw` is an honest model of the appliance
itself: search runs the embedded row-matching core over its stored rows. -/

/-- A scripted gateway: responses are consumed in call order and every
call is appended to `log`. -/
structure ScriptedGw where
  searchResponses : List (Except String (Option PeerRow))
  updateResponses : List (Except String Unit)
  log : List GwCall
  deriving Repr

def scriptedApi : OPNsenseAPI ScriptedGw where
  searchPeerByTunnelAddress addr s :=
    (s.searchResponses.headD (Except.error "script exhausted"),
     { s with searchResponses := s.searchResponses.tail,
              log := s.log ++ [GwCall.search addr] })
  updatePeer uuid name publicKey tunnelAddress servers s :=
    (s.updateResponses.headD (Except.error "script exhausted"),
     { s with updateResponses := s.updateResponses.tail,
              log := s.log ++
                [GwCall.update uuid (updatePeerPayload name publicKey tunnelAddress servers)] })
  createPeer name publicKey tunnelAddress keepalive s :=
    (Except.ok (),
     { s with log := s.log ++
                [GwCall.create (createPeerPayload name publicKey tunnelAddress keepalive)] })

/-- An honest model of the appliance: peer rows plus a call log. -/
structure ServerGw where
  rows : List PeerRow
  log : List GwCall
  deriving Repr

def serverApi : OPNsenseAPI ServerGw where
  searchPeerByTunnelAddress addr s :=
    (Except.ok (searchRows s.rows addr),
     { s with log := s.log ++ [GwCall.search addr] })
  updatePeer uuid name publicKey tunnelAddress servers s :=
    (Except.ok (),
     { rows := s.rows.map (fun row =>
         if row.UUID = uuid then
           { UUID := uuid, Name := name, PubKey := publicKey,
             TunnelAddress := tunnelAddress, Servers := servers }
         else row),
       log := s.log ++
         [GwCall.update uuid (updatePeerPayload name publicKey tunnelAddress servers)] })
  createPeer name publicKey tunnelAddress keepalive s :=
    (Except.ok (),
     { rows := s.rows ++
         [{ UUID := "", Name := name, PubKey := publicKey,
            TunnelAddress := tunnelAddress, Servers := "" }],
       log := s.log ++
         [GwCall.create (createPeerPayload name publicKey tunnelAddress keepalive)] })

end EsxiLab

namespace EsxiLab

/-- `true` exactly on `update` gateway calls. -/
def GwCall.isUpdateCall : GwCall → Bool
  | GwCall.update _ _ => true
  | _ => false

/-- `true` exactly on `create` gateway calls. -/
def GwCall.isCreateCall : GwCall → Bool
  | GwCall.create _ => true
  | _ => false

/-- C10: when auto-registration of peers is disabled, peer registration
returns success immediately without touching the gateway state — for any
gateway, including an absent one — and the client-not-configured and
index-range errors can only arise when auto-registration is enabled. -/
theorem registerPeer_disabled_is_noop {σ : Type} (api? : Option (OPNsenseAPI σ))
    (cfg : WireGuardConfig) (username publicKey : String) (userIndex : Int) (s : σ) :
    (cfg.AutoRegisterPeers = false →
      RegisterPeerWithOPNsense api? cfg username publicKey userIndex s = (Except.ok (), s)) ∧
    ((RegisterPeerWithOPNsense api? cfg username publicKey userIndex s).1 =
        Except.error RegError.clientNotConfigured → cfg.AutoRegisterPeers = true) ∧
    (∀ i, (RegisterPeerWithOPNsense api? cfg username publicKey userIndex s).1 =
        Except.error (RegError.invalidUserIndex i) → cfg.AutoRegisterPeers = true) := by
  refine ⟨fun hoff => ?_, fun herr => ?_, fun i herr => ?_⟩
  · simp [RegisterPeerWithOPNsense, hoff]
  · by_cases hon : cfg.AutoRegisterPeers
    · exact hon
    · simp [RegisterPeerWithOPNsense, hon] at herr
  · by_cases hon : cfg.AutoRegisterPeers
    · exact hon
    · simp [RegisterPeerWithOPNsense, hon] at herr

/-- Witness for C10 at a concrete disabled configuration with no client. -/
theorem registerPeer_disabled_is_noop_witness :
    RegisterPeerWithOPNsense (none : Option (OPNsenseAPI Unit))
      { Enabled := true, ClientAddresses := ["10.0.0.2/32"], Keepalive := 25,
        AutoRegisterPeers := false } "alice" "pk" 0 () = (Except.ok (), ()) :=
  (registerPeer_disabled_is_noop (none : Option (OPNsenseAPI Unit))
    { Enabled := true, ClientAddresses := ["10.0.0.2/32"], Keepalive := 25,
      AutoRegisterPeers := false } "alice" "pk" 0 ()).1 rfl

end EsxiLab

namespace EsxiLab

/-- C1: after a successful peer update, registration re-queries the
gateway by the same tunnel address; a re-query that finds no peer yields
the peer-disappeared error, and one that finds a peer whose key differs
from the key just written yields the key-mismatch error — both distinct
constructors from every request-level transport error.  The recorded call
log shows the re-query uses the same tunnel address as the lookup and the
update. -/
theorem registerPeer_verifies_readback (cfg : WireGuardConfig)
    (username publicKey : String) (userIndex : Int) (p q : PeerRow)
    (log0 : List GwCall)
    (hAuto : cfg.AutoRegisterPeers = true)
    (h0 : 0 ≤ userIndex) (h1 : userIndex < (cfg.ClientAddresses.length : Int)) :
    (q.PubKey ≠ publicKey →
      RegisterPeerWithOPNsense (some scriptedApi) cfg username publicKey userIndex
        { searchResponses := [Except.ok (some p), Except.ok (some q)],
          updateResponses := [Except.ok ()], log := log0 } =
      (Except.error (RegError.keyMismatch q.PubKey publicKey p.UUID),
       { searchResponses := [], updateResponses := [],
         log := log0 ++
           [GwCall.search (cfg.ClientAddresses.getD userIndex.toNat ""),
            GwCall.update p.UUID
              (updatePeerPayload (if p.Name = "" then username else p.Name) publicKey
                (cfg.ClientAddresses.getD userIndex.toNat "") p.Servers),
            GwCall.search (cfg.ClientAddresses.getD userIndex.toNat "")] })) ∧
    (RegisterPeerWithOPNsense (some scriptedApi) cfg username publicKey userIndex
        { searchResponses := [Except.ok (some p), Except.ok none],
          updateResponses := [Except.ok ()], log := log0 } =
      (Except.error (RegError.peerDisappeared (cfg.ClientAddresses.getD userIndex.toNat "")),
       { searchResponses := [], updateResponses := [],
         log := log0 ++
           [GwCall.search (cfg.ClientAddresses.getD userIndex.toNat ""),
            GwCall.update p.UUID
              (updatePeerPayload (if p.Name = "" then username else p.Name) publicKey
                (cfg.ClientAddresses.getD userIndex.toNat "") p.Servers),
            GwCall.search (cfg.ClientAddresses.getD userIndex.toNat "")] })) ∧
    (∀ a b c e u t, RegError.keyMismatch a b c ≠ RegError.searchFailed e ∧
      RegError.keyMismatch a b c ≠ RegError.updateFailed u t e ∧
      RegError.keyMismatch a b c ≠ RegError.verifySearchFailed e ∧
      RegError.peerDisappeared t ≠ RegError.searchFailed e ∧
      RegError.peerDisappeared t ≠ RegError.updateFailed u t e ∧
      RegError.peerDisappeared t ≠ RegError.verifySearchFailed e) := by
  have hidx : ¬(userIndex < 0 ∨ userIndex ≥ (cfg.ClientAddresses.length : Int)) := by omega
  refine ⟨fun hne => ?_, ?_, by intros; exact ⟨by simp, by simp, by simp, by simp, by simp, by simp⟩⟩
  · simp [RegisterPeerWithOPNsense, hAuto, hidx, scriptedApi, hne]
  · simp [RegisterPeerWithOPNsense, hAuto, hidx, scriptedApi]

end EsxiLab

namespace EsxiLab

/-- Witness for C1: an existing peer holding key "old" on servers "srv1";
after writing key "new", the re-query returns key "wrong" — registration
reports the key-mismatch error, never silent success. -/
theorem registerPeer_verifies_readback_witness :
    RegisterPeerWithOPNsense (some scriptedApi)
      { Enabled := true, ClientAddresses := ["172.17.18.103/32"], Keepalive := 25,
        AutoRegisterPeers := true } "alice" "new" 0
      { searchResponses :=
          [Except.ok (some { UUID := "uuid-1", Name := "alice-peer", PubKey := "old",
                             TunnelAddress := "172.17.18.103/32", Servers := "srv1" }),
           Except.ok (some { UUID := "uuid-1", Name := "alice-peer", PubKey := "wrong",
                             TunnelAddress := "172.17.18.103/32", Servers := "srv1" })],
        updateResponses := [Except.ok ()], log := [] } =
    (Except.error (RegError.keyMismatch "wrong" "new" "uuid-1"),
     { searchResponses := [], updateResponses := [],
       log := [GwCall.search "172.17.18.103/32",
               GwCall.update "uuid-1"
                 (updatePeerPayload "alice-peer" "new" "172.17.18.103/32" "srv1"),
               GwCall.search "172.17.18.103/32"] }) := by
  have h := (registerPeer_verifies_readback
    { Enabled := true, ClientAddresses := ["172.17.18.103/32"], Keepalive := 25,
      AutoRegisterPeers := true } "alice" "new" 0
    { UUID := "uuid-1", Name := "alice-peer", PubKey := "old",
      TunnelAddress := "172.17.18.103/32", Servers := "srv1" }
    { UUID := "uuid-1", Name := "alice-peer", PubKey := "wrong",
      TunnelAddress := "172.17.18.103/32", Servers := "srv1" }
    [] rfl (by decide) (by decide)).1 (by decide)
  simpa using h

end EsxiLab

namespace EsxiLab

/-- C2: peer lookup matches rows by tunnel address with the CIDR suffix
stripped from both sides (so "172.17.18.103/32" and "172.17.18.103"
compare equal in either direction), and when no row of the gateway
matches the resolved address the registration returns the hard
no-existing-peer error with the gateway rows untouched — the call log
records only the search, never a create. -/
theorem registerPeer_no_match_is_hard_error (cfg : WireGuardConfig)
    (username publicKey : String) (userIndex : Int) (rows : List PeerRow)
    (log0 : List GwCall)
    (hAuto : cfg.AutoRegisterPeers = true)
    (h0 : 0 ≤ userIndex) (h1 : userIndex < (cfg.ClientAddresses.length : Int))
    (hnone : ∀ r ∈ rows, normalizeTunnelAddress r.TunnelAddress ≠
      normalizeTunnelAddress (cfg.ClientAddresses.getD userIndex.toNat "")) :
    (∀ (rs : List PeerRow) (addr : String) (r : PeerRow), searchRows rs addr = some r →
      normalizeTunnelAddress r.TunnelAddress = normalizeTunnelAddress addr) ∧
    normalizeTunnelAddress "172.17.18.103/32" = normalizeTunnelAddress "172.17.18.103" ∧
    RegisterPeerWithOPNsense (some serverApi) cfg username publicKey userIndex
      { rows := rows, log := log0 } =
    (Except.error (RegError.noExistingPeer (cfg.ClientAddresses.getD userIndex.toNat "")),
     { rows := rows,
       log := log0 ++ [GwCall.search (cfg.ClientAddresses.getD userIndex.toNat "")] }) := by
  have hidx : ¬(userIndex < 0 ∨ userIndex ≥ (cfg.ClientAddresses.length : Int)) := by omega
  refine ⟨fun rs addr r h => ?_, by decide, ?_⟩
  · simp only [searchRows] at h
    have hp := List.find?_some h
    exact of_decide_eq_true hp
  · have hsearch : searchRows rows (cfg.ClientAddresses.getD userIndex.toNat "") = none := by
      refine List.find?_eq_none.2 fun r hr => ?_
      simpa using hnone r hr
    simp only [List.getD_eq_getElem?_getD] at hsearch
    simp [RegisterPeerWithOPNsense, hAuto, hidx, serverApi, hsearch]

/-- Witness for C2: one pre-provisioned row at a different address, target
"172.17.18.103" — hard error and unchanged rows. -/
theorem registerPeer_no_match_is_hard_error_witness :
    RegisterPeerWithOPNsense (some serverApi)
      { Enabled := true, ClientAddresses := ["172.17.18.103"], Keepalive := 25,
        AutoRegisterPeers := true } "alice" "new" 0
      { rows := [{ UUID := "uuid-2", Name := "bob", PubKey := "k",
                   TunnelAddress := "10.0.0.9/32", Servers := "srv1" }], log := [] } =
    (Except.error (RegError.noExistingPeer "172.17.18.103"),
     { rows := [{ UUID := "uuid-2", Name := "bob", PubKey := "k",
                  TunnelAddress := "10.0.0.9/32", Servers := "srv1" }],
       log := [GwCall.search "172.17.18.103"] }) := by
  have h := (registerPeer_no_match_is_hard_error
    { Enabled := true, ClientAddresses := ["172.17.18.103"], Keepalive := 25,
      AutoRegisterPeers := true } "alice" "new" 0
    [{ UUID := "uuid-2", Name := "bob", PubKey := "k",
       TunnelAddress := "10.0.0.9/32", Servers := "srv1" }]
    [] rfl (by decide) (by decide) (by decide)).2.2
  simpa using h

end EsxiLab

namespace EsxiLab

/-- C3: whenever the lookup finds an existing peer, the registration
issues exactly one update call to the gateway, and that call's payload
always contains the `servers` field with the peer's attachment verbatim,
the `name` field equal to the existing display name with username
fallback only for the empty name, plus the new public key and the same
tunnel address — whatever the update and re-query responses are. -/
theorem registerPeer_update_preserves_servers (cfg : WireGuardConfig)
    (username publicKey : String) (userIndex : Int) (p : PeerRow)
    (search2 : Except String (Option PeerRow)) (upd : Except String Unit)
    (log0 : List GwCall)
    (hAuto : cfg.AutoRegisterPeers = true)
    (h0 : 0 ≤ userIndex) (h1 : userIndex < (cfg.ClientAddresses.length : Int)) :
    (RegisterPeerWithOPNsense (some scriptedApi) cfg username publicKey userIndex
        { searchResponses := [Except.ok (some p), search2],
          updateResponses := [upd], log := log0 }).2.log.filter GwCall.isUpdateCall =
      log0.filter GwCall.isUpdateCall ++
      [GwCall.update p.UUID
        (updatePeerPayload (if p.Name = "" then username else p.Name) publicKey
          (cfg.ClientAddresses.getD userIndex.toNat "") p.Servers)] ∧
    ("servers", p.Servers) ∈
      updatePeerPayload (if p.Name = "" then username else p.Name) publicKey
        (cfg.ClientAddresses.getD userIndex.toNat "") p.Servers ∧
    ("name", if p.Name = "" then username else p.Name) ∈
      updatePeerPayload (if p.Name = "" then username else p.Name) publicKey
        (cfg.ClientAddresses.getD userIndex.toNat "") p.Servers ∧
    ("pubkey", publicKey) ∈
      updatePeerPayload (if p.Name = "" then username else p.Name) publicKey
        (cfg.ClientAddresses.getD userIndex.toNat "") p.Servers ∧
    ("tunneladdress", cfg.ClientAddresses.getD userIndex.toNat "") ∈
      updatePeerPayload (if p.Name = "" then username else p.Name) publicKey
        (cfg.ClientAddresses.getD userIndex.toNat "") p.Servers := by
  have hidx : ¬(userIndex < 0 ∨ userIndex ≥ (cfg.ClientAddresses.length : Int)) := by omega
  refine ⟨?_, by simp [updatePeerPayload], by simp [updatePeerPayload],
    by simp [updatePeerPayload], by simp [updatePeerPayload]⟩
  rcases upd with e | u
  · simp [RegisterPeerWithOPNsense, hAuto, hidx, scriptedApi, List.filter_append,
      GwCall.isUpdateCall]
  · rcases search2 with e2 | r2
    · simp [RegisterPeerWithOPNsense, hAuto, hidx, scriptedApi, List.filter_append,
        GwCall.isUpdateCall]
    · rcases r2 with _ | q
      · simp [RegisterPeerWithOPNsense, hAuto, hidx, scriptedApi, List.filter_append,
          GwCall.isUpdateCall]
      · rcases eq_or_ne q.PubKey publicKey with hq | hq <;>
          simp [RegisterPeerWithOPNsense, hAuto, hidx, scriptedApi, List.filter_append,
            GwCall.isUpdateCall, hq]

/-- Witness for C3 at a concrete peer with a non-empty name and servers
"srv1": the single update call carries servers verbatim. -/
theorem registerPeer_update_preserves_servers_witness :
    (RegisterPeerWithOPNsense (some scriptedApi)
      { Enabled := true, ClientAddresses := ["172.17.18.103/32"], Keepalive := 25,
        AutoRegisterPeers := true } "alice" "new" 0
      { searchResponses :=
          [Except.ok (some { UUID := "uuid-1", Name := "alice-peer", PubKey := "old",
                             TunnelAddress := "172.17.18.103/32", Servers := "srv1" }),
           Except.ok (some { UUID := "uuid-1", Name := "alice-peer", PubKey := "new",
                             TunnelAddress := "172.17.18.103/32", Servers := "srv1" })],
        updateResponses := [Except.ok ()], log := [] }).2.log.filter GwCall.isUpdateCall =
      [GwCall.update "uuid-1" (updatePeerPayload "alice-peer" "new" "172.17.18.103/32" "srv1")] ∧
    ("servers", "srv1") ∈ updatePeerPayload "alice-peer" "new" "172.17.18.103/32" "srv1" := by
  have h := registerPeer_update_preserves_servers
    { Enabled := true, ClientAddresses := ["172.17.18.103/32"], Keepalive := 25,
      AutoRegisterPeers := true } "alice" "new" 0
    { UUID := "uuid-1", Name := "alice-peer", PubKey := "old",
      TunnelAddress := "172.17.18.103/32", Servers := "srv1" }
    (Except.ok (some { UUID := "uuid-1", Name := "alice-peer", PubKey := "new",
                       TunnelAddress := "172.17.18.103/32", Servers := "srv1" }))
    (Except.ok ()) [] rfl (by decide) (by decide)
  refine ⟨?_, by simpa using h.2.1⟩
  have h1 := h.1
  simpa using h1

end EsxiLab

namespace EsxiLab

/-! ## Snapshot forest (service/vmware.go) -/

/-- One node of `VirtualMachineSnapshotTree`: name, creation time,
managed-object reference, and the ordered child list. -/
inductive SnapshotTree where
  | mk (name : String) (createTime : Int) (ref : String)
       (children : List SnapshotTree)

/-- Creation timestamp of a snapshot node. -/
def SnapshotTree.createTime : SnapshotTree → Int
  | SnapshotTree.mk _ c _ _ => c

/-- Managed-object reference of a snapshot node. -/
def SnapshotTree.ref : SnapshotTree → String
  | SnapshotTree.mk _ _ r _ => r

/-- Child snapshot list of a snapshot node. -/
def SnapshotTree.children : SnapshotTree → List SnapshotTree
  | SnapshotTree.mk _ _ _ ch => ch

theorem SnapshotTree.children_sizeOf_lt (t : SnapshotTree) :
    sizeOf t.children < sizeOf t := by
  cases t with
  | mk n c r ch => simp [SnapshotTree.children]

/-- The root-selection loop of `findLatestSnapshotInTree`: starting from
the first root, replace the candidate whenever a later root's creation
time is strictly after the candidate's. -/
def latestRootAcc : SnapshotTree → List SnapshotTree → SnapshotTree
  | acc, [] => acc
  | acc, t :: ts => latestRootAcc (if acc.createTime < t.createTime then t else acc) ts

theorem latestRootAcc_mem (acc : SnapshotTree) (ts : List SnapshotTree) :
    latestRootAcc acc ts ∈ acc :: ts := by
  induction ts generalizing acc with
  | nil => simp [latestRootAcc]
  | cons t ts ih =>
    rw [latestRootAcc]
    by_cases hc : acc.createTime < t.createTime
    · rw [if_pos hc]
      have h := ih t
      rcases List.mem_cons.1 h with h | h
      · exact List.mem_cons.2 (Or.inr (by simp [h]))
      · exact List.mem_cons.2 (Or.inr (List.mem_cons.2 (Or.inr h)))
    · rw [if_neg hc]
      have h := ih acc
      rcases List.mem_cons.1 h with h | h
      · exact List.mem_cons.2 (Or.inl h)
      · exact List.mem_cons.2 (Or.inr (List.mem_cons.2 (Or.inr h)))

theorem latestRootAcc_max (acc : SnapshotTree) (ts : List SnapshotTree) :
    ∀ u ∈ acc :: ts, u.createTime ≤ (latestRootAcc acc ts).createTime := by
  induction ts generalizing acc with
  | nil =>
    intro u hu
    rcases List.mem_cons.1 hu with h | h
    · rw [h]; exact le_refl _
    · simp at h
  | cons t ts ih =>
    intro u hu
    rw [latestRootAcc]
    have hstep : acc.createTime ≤ (if acc.createTime < t.createTime then t else acc).createTime ∧
        t.createTime ≤ (if acc.createTime < t.createTime then t else acc).createTime := by
      by_cases hc : acc.createTime < t.createTime
      · simp [hc]; omega
      · simp [hc]; omega
    have hhead := ih (if acc.createTime < t.createTime then t else acc)
      (if acc.createTime < t.createTime then t else acc) (List.mem_cons.2 (Or.inl rfl))
    rcases List.mem_cons.1 hu with h | h
    · rw [h]; exact le_trans hstep.1 hhead
    · rcases List.mem_cons.1 h with h | h
      · rw [h]; exact le_trans hstep.2 hhead
      · exact ih (if acc.createTime < t.createTime then t else acc) u
          (List.mem_cons.2 (Or.inr h))

/-- `findLatestSnapshotInTree`: pick the root with the maximum creation
time among the given roots, then recurse into that root's children; when
the recursion finds nothing (no children), return the selected root. -/
def findLatestSnapshotInTree : List SnapshotTree → Option SnapshotTree
  | [] => none
  | t :: ts =>
    match findLatestSnapshotInTree (latestRootAcc t ts).children with
    | some c => some c
    | none => some (latestRootAcc t ts)
termination_by l => sizeOf l
decreasing_by
  have h1 := List.sizeOf_lt_of_mem (latestRootAcc_mem t ts)
  have h2 := SnapshotTree.children_sizeOf_lt (latestRootAcc t ts)
  omega

/-- The selection procedure described by the spec: repeatedly choose a
creation-time-maximal node among the current roots and descend into that
node's children only, stopping at a childless selection.  No comparison
is ever made between a selected node and its own descendants. -/
inductive MaxDescend : List SnapshotTree → SnapshotTree → Prop where
  | stop (roots : List SnapshotTree) (r : SnapshotTree) :
      r ∈ roots → (∀ u ∈ roots, u.createTime ≤ r.createTime) → r.children = [] →
      MaxDescend roots r
  | step (roots : List SnapshotTree) (r n : SnapshotTree) :
      r ∈ roots → (∀ u ∈ roots, u.createTime ≤ r.createTime) →
      MaxDescend r.children n → MaxDescend roots n

end EsxiLab

namespace EsxiLab

theorem findLatest_maxDescend_aux (N : Nat) :
    ∀ l : List SnapshotTree, sizeOf l ≤ N → l ≠ [] →
      ∃ n, findLatestSnapshotInTree l = some n ∧ MaxDescend l n := by
  induction N with
  | zero =>
    intro l hs hne
    cases l with
    | nil => exact absurd rfl hne
    | cons t ts => simp at hs
  | succ N ih =>
    intro l hs hne
    cases l with
    | nil => exact absurd rfl hne
    | cons t ts =>
      have hmem : latestRootAcc t ts ∈ t :: ts := latestRootAcc_mem t ts
      have hmax : ∀ u ∈ t :: ts, u.createTime ≤ (latestRootAcc t ts).createTime :=
        latestRootAcc_max t ts
      by_cases hch : (latestRootAcc t ts).children = []
      · refine ⟨latestRootAcc t ts, ?_, MaxDescend.stop _ _ hmem hmax hch⟩
        rw [findLatestSnapshotInTree, hch]
        simp [findLatestSnapshotInTree]
      · have hsize : sizeOf (latestRootAcc t ts).children ≤ N := by
          have h1 := List.sizeOf_lt_of_mem hmem
          have h2 := SnapshotTree.children_sizeOf_lt (latestRootAcc t ts)
          omega
        obtain ⟨n, hfind, hmd⟩ := ih (latestRootAcc t ts).children hsize hch
        refine ⟨n, ?_, MaxDescend.step _ _ _ hmem hmax hmd⟩
        rw [findLatestSnapshotInTree, hfind]

/-- C6: on every non-empty snapshot forest, find-latest returns exactly a
node reached by selecting a creation-time-maximal root, then repeating
the same max-then-descend selection inside that root's children only —
never comparing a selected node against its own descendants.  The second
conjunct shows the documented consequence on a concrete forest: the
returned child (created at time 1) is chronologically older than the
sibling root created at time 5. -/
theorem findLatest_is_max_then_descend :
    (∀ l : List SnapshotTree, l ≠ [] →
      ∃ n, findLatestSnapshotInTree l = some n ∧ MaxDescend l n) ∧
    (findLatestSnapshotInTree
        [SnapshotTree.mk "root1" 10 "r1" [SnapshotTree.mk "child" 1 "c1" []],
         SnapshotTree.mk "root2" 5 "r2" []] =
      some (SnapshotTree.mk "child" 1 "c1" []) ∧
     (SnapshotTree.mk "child" 1 "c1" []).createTime <
       (SnapshotTree.mk "root2" 5 "r2" []).createTime) := by
  refine ⟨fun l hne => findLatest_maxDescend_aux (sizeOf l) l (le_refl _) hne, ?_, ?_⟩
  · rw [findLatestSnapshotInTree]
    norm_num [latestRootAcc, SnapshotTree.createTime, SnapshotTree.children]
    rw [findLatestSnapshotInTree]
    norm_num [latestRootAcc, SnapshotTree.children]
    rw [findLatestSnapshotInTree]
  · norm_num [SnapshotTree.createTime]

/-- Witness for C6 on a concrete two-level forest. -/
theorem findLatest_is_max_then_descend_witness :
    ∃ n, findLatestSnapshotInTree
        [SnapshotTree.mk "base" 3 "ra" [], SnapshotTree.mk "patched" 7 "rb" []] = some n ∧
      MaxDescend
        [SnapshotTree.mk "base" 3 "ra" [], SnapshotTree.mk "patched" 7 "rb" []] n :=
  findLatest_is_max_then_descend.1 _ (by simp)

end EsxiLab

namespace EsxiLab

/-! ## Email extraction from a booking summary
(orchestrator.go, `ExtractEmailFromSummary`)

The Go loop walks the summary once: every `(` moves `start` to just after
it, and the first `)` seen while `start > 0` fixes `end` and breaks.  The
embedding works on `List Char` with an explicit index; Go's byte indices
and these character indices delimit the same substring because both
delimiters are one-byte characters. -/

/-- The scanning loop of `ExtractEmailFromSummary`: returns the final
`(start, end)` pair (`-1` meaning never set). -/
def scanParens : List Char → Nat → Int → Int × Int
  | [], _, start => (start, -1)
  | c :: cs, i, start =>
    if c = '(' then scanParens cs (i + 1) (Int.ofNat (i + 1))
    else if c = ')' ∧ start > 0 then (start, Int.ofNat i)
    else scanParens cs (i + 1) start

/-- `ExtractEmailFromSummary`: the slice between the final `start` and
`end` when `start > 0` and `end > start`, otherwise empty. -/
def ExtractEmailFromSummary (s : List Char) : List Char :=
  let p := scanParens s 0 (-1)
  if p.1 > 0 ∧ p.2 > p.1 then (s.drop p.1.toNat).take (p.2.toNat - p.1.toNat) else []

/-- The extraction rule as worded by the spec: the text between the
*first* opening parenthesis and the *last* closing parenthesis after it
(empty when no such pair exists). -/
def extractEmailSpecRule (s : List Char) : List Char :=
  match s.findIdx? (fun c => c = '(') with
  | none => []
  | some i0 =>
    match ((List.range s.length).filter
        (fun j => i0 < j ∧ s.getD j ' ' = ')')).getLast? with
    | none => []
    | some j => (s.drop (i0 + 1)).take (j - (i0 + 1))

theorem scanParens_skip (pre : List Char) (l : List Char) (i : Nat) (st : Int)
    (h : ')' ∉ pre) :
    ∃ st', scanParens (pre ++ l) i st = scanParens l (i + pre.length) st' := by
  induction pre generalizing i st with
  | nil => exact ⟨st, by simp⟩
  | cons c cs ih =>
    have hc : c ≠ ')' := fun hc => h (by simp [hc])
    have hcs : ')' ∉ cs := fun hm => h (by simp [hm])
    by_cases hop : c = '('
    · obtain ⟨st', hst⟩ := ih (i + 1) (Int.ofNat (i + 1)) hcs
      refine ⟨st', ?_⟩
      rw [List.cons_append, scanParens, if_pos hop, hst]
      congr 1
      simp
      omega
    · obtain ⟨st', hst⟩ := ih (i + 1) st hcs
      refine ⟨st', ?_⟩
      rw [List.cons_append, scanParens, if_neg hop, if_neg (by simp [hc]), hst]
      congr 1
      simp
      omega

theorem scanParens_to_close (addr : List Char) (rest : List Char) (k : Nat) (st : Int)
    (h : ∀ c ∈ addr, c ≠ '(' ∧ c ≠ ')') (hst : st > 0) :
    scanParens (addr ++ ')' :: rest) k st = (st, Int.ofNat (k + addr.length)) := by
  induction addr generalizing k with
  | nil =>
    rw [List.nil_append, scanParens, if_neg (by decide), if_pos ⟨rfl, hst⟩]
    simp
  | cons c cs ih =>
    have hc := h c (by simp)
    rw [List.cons_append, scanParens, if_neg hc.1, if_neg (by simp [hc.2]),
      ih (k + 1) (fun x hx => h x (List.mem_cons_of_mem c hx))]
    have hlen : k + 1 + cs.length = k + (c :: cs).length := by
      simp only [List.length_cons]
      omega
    rw [hlen]

end EsxiLab

namespace EsxiLab

/-- C9 (amended): the fallback address extraction pairs the *first*
closing parenthesis with the *last* opening parenthesis seen before it,
so nested parentheses resolve to the innermost address; it returns the
empty string when no parenthesis pair is found.  The general conjunct
covers every summary of shape `name ++ "(" ++ addr ++ ")" ++ rest` with
no `)` in the name and no parentheses inside the address; the remaining
conjuncts are the spec's four examples. -/
theorem extractEmail_innermost (name addr rest : List Char)
    (hname : ')' ∉ name) (haddr : ∀ c ∈ addr, c ≠ '(' ∧ c ≠ ')') (hne : addr ≠ []) :
    ExtractEmailFromSummary (name ++ '(' :: (addr ++ ')' :: rest)) = addr ∧
    ExtractEmailFromSummary "John Doe (john@example.com)".data = "john@example.com".data ∧
    ExtractEmailFromSummary "John (foo (bar@baz.com))".data = "bar@baz.com".data ∧
    ExtractEmailFromSummary "John Doe".data = "".data ∧
    ExtractEmailFromSummary "".data = "".data := by
  refine ⟨?_, by decide, by decide, by decide, by decide⟩
  obtain ⟨st', hskip⟩ := scanParens_skip name ('(' :: (addr ++ ')' :: rest)) 0 (-1) hname
  have hpos : Int.ofNat (name.length + 1) > 0 := Int.ofNat_pos.2 (Nat.succ_pos name.length)
  have hlen0 : 0 < addr.length := List.length_pos.2 hne
  have hfull : scanParens (name ++ '(' :: (addr ++ ')' :: rest)) 0 (-1) =
      (Int.ofNat (name.length + 1), Int.ofNat (name.length + 1 + addr.length)) := by
    rw [hskip]
    simp only [Nat.zero_add]
    rw [scanParens, if_pos rfl, scanParens_to_close addr rest _ _ haddr hpos]
  have hlt : Int.ofNat (name.length + 1 + addr.length) > Int.ofNat (name.length + 1) :=
    Int.ofNat_lt.2 (by omega)
  unfold ExtractEmailFromSummary
  rw [hfull]
  rw [if_pos ⟨hpos, hlt⟩]
  have ht1 : (Int.ofNat (name.length + 1)).toNat = name.length + 1 := rfl
  have ht2 : (Int.ofNat (name.length + 1 + addr.length)).toNat =
      name.length + 1 + addr.length := rfl
  rw [ht1, ht2]
  have hdrop : (name ++ '(' :: (addr ++ ')' :: rest)).drop (name.length + 1) =
      addr ++ ')' :: rest := by
    rw [List.append_cons]
    exact List.drop_left' (by simp)
  have hsub : name.length + 1 + addr.length - (name.length + 1) = addr.length := by omega
  rw [hsub, hdrop]
  exact List.take_left' rfl

/-- C9 counterexample: on the claim's own nested example the code returns
the innermost "bar@baz.com", while the rule stated by the claim — the
text between the first opening parenthesis and the last closing
parenthesis after it — yields "foo (bar@baz.com)"; the two disagree. -/
theorem extractEmail_lastClose_counterexample :
    ExtractEmailFromSummary "John (foo (bar@baz.com))".data = "bar@baz.com".data ∧
    extractEmailSpecRule "John (foo (bar@baz.com))".data = "foo (bar@baz.com)".data ∧
    extractEmailSpecRule "John (foo (bar@baz.com))".data ≠
      ExtractEmailFromSummary "John (foo (bar@baz.com))".data :=
  ⟨by decide, by decide, by decide⟩

/-- Witness for C9 (amended) on the nested example, viewed as
`"John (foo " ++ "(" ++ "bar@baz.com" ++ ")" ++ ")"`. -/
theorem extractEmail_innermost_witness :
    ExtractEmailFromSummary
      ("John (foo ".data ++ '(' :: ("bar@baz.com".data ++ ')' :: ")".data)) =
      "bar@baz.com".data :=
  (extractEmail_innermost "John (foo ".data "bar@baz.com".data ")".data
    (by decide) (by decide) (by decide)).1

end EsxiLab

namespace EsxiLab

/-! ## Active-event filtering (orchestrator.go, `FilterActiveEvents`)

Calendar instants are abstracted by a parse oracle
`parse : String → Option Int` standing for `time.Parse(time.RFC3339, ·)`;
`none` is a parse failure.  Go's `time.Time` comparisons `Before`,
`Equal`, `After` become `<`, `=`, `>` on the parsed instants. -/

/-- `calendar.EventDateTime`: only the `DateTime` field is read; an
all-day booking carries an empty `DateTime`. -/
structure EventDateTime where
  dateTime : String
  deriving DecidableEq, Repr

/-- One attendee of a calendar event. -/
structure Attendee where
  email : String
  organizer : Bool
  deriving DecidableEq, Repr

/-- The fields of `calendar.Event` read by the orchestrator; `none` for
`start?`/`end?` models a nil pointer. -/
structure CalEvent where
  summary : String
  start? : Option EventDateTime
  end? : Option EventDateTime
  attendees : List Attendee
  deriving DecidableEq, Repr

/-- `EventInfo`: summary plus derived participant email. -/
structure EventInfo where
  summary : String
  email : String
  deriving DecidableEq, Repr

/-- The email derivation inside `FilterActiveEvents`: the first attendee
with a non-empty address who is not the organizer; otherwise, for a
non-empty summary, the parenthesized fallback extraction. -/
def deriveEventEmail (e : CalEvent) : String :=
  let fromAttendees :=
    match e.attendees.find? (fun a => a.email ≠ "" ∧ ¬a.organizer) with
    | some a => a.email
    | none => ""
  if fromAttendees = "" ∧ e.summary ≠ "" then
    String.mk (ExtractEmailFromSummary e.summary.data)
  else fromAttendees

/-- `FilterActiveEvents`, translated clause by clause: skip events with a
nil or empty start or end, or an unparseable one; keep an event when
`(start.Before(now) || start.Equal(now)) && end.After(now)`; derive the
email for each kept event; preserve order. -/
def FilterActiveEvents (parse : String → Option Int) (events : List CalEvent)
    (now : Int) : List EventInfo :=
  match events with
  | [] => []
  | e :: rest =>
    match e.start?, e.end? with
    | some s, some en =>
      if s.dateTime = "" ∨ en.dateTime = "" then FilterActiveEvents parse rest now
      else
        match parse s.dateTime with
        | none => FilterActiveEvents parse rest now
        | some startTime =>
          match parse en.dateTime with
          | none => FilterActiveEvents parse rest now
          | some endTime =>
            if (startTime < now ∨ startTime = now) ∧ endTime > now then
              { summary := e.summary, email := deriveEventEmail e } ::
                FilterActiveEvents parse rest now
            else FilterActiveEvents parse rest now
    | _, _ => FilterActiveEvents parse rest now

/-- The spec's activity notion: the booking has both a start and an end
date-time (all-day bookings excluded) and `start ≤ now < end`. -/
def bookingActive (parse : String → Option Int) (now : Int) (e : CalEvent) : Bool :=
  match e.start?, e.end? with
  | some s, some en =>
    if s.dateTime = "" ∨ en.dateTime = "" then false
    else
      match parse s.dateTime, parse en.dateTime with
      | some st, some et => decide (st ≤ now ∧ now < et)
      | _, _ => false
  | _, _ => false

end EsxiLab

namespace EsxiLab

/-- C8: a booking is kept exactly when it has both a start and an end
date-time (all-day bookings excluded) that parse, with
`start ≤ now < end`, and the output preserves the input order — the
filter equals list-`filter` by the spec's activity predicate followed by
the email projection.  The remaining conjuncts instantiate the 13:00Z to
15:00Z example at 14:00Z (active), exactly 13:00Z (active) and exactly
15:00Z (inactive), with minutes as instants. -/
theorem filterActiveEvents_spec (parse : String → Option Int) (now : Int)
    (events : List CalEvent) :
    FilterActiveEvents parse events now =
      (events.filter (bookingActive parse now)).map
        (fun e => { summary := e.summary, email := deriveEventEmail e }) ∧
    FilterActiveEvents
      (fun str => if str = "13:00Z" then some 780 else
        if str = "15:00Z" then some 900 else none)
      [{ summary := "Lab (alice@example.com)",
         start? := some { dateTime := "13:00Z" },
         end? := some { dateTime := "15:00Z" }, attendees := [] }] 840 =
      [{ summary := "Lab (alice@example.com)", email := "alice@example.com" }] ∧
    FilterActiveEvents
      (fun str => if str = "13:00Z" then some 780 else
        if str = "15:00Z" then some 900 else none)
      [{ summary := "Lab (alice@example.com)",
         start? := some { dateTime := "13:00Z" },
         end? := some { dateTime := "15:00Z" }, attendees := [] }] 780 =
      [{ summary := "Lab (alice@example.com)", email := "alice@example.com" }] ∧
    FilterActiveEvents
      (fun str => if str = "13:00Z" then some 780 else
        if str = "15:00Z" then some 900 else none)
      [{ summary := "Lab (alice@example.com)",
         start? := some { dateTime := "13:00Z" },
         end? := some { dateTime := "15:00Z" }, attendees := [] }] 900 = [] := by
  refine ⟨?_, by decide, by decide, by decide⟩
  induction events with
  | nil => rfl
  | cons e rest ih =>
    rw [FilterActiveEvents]
    cases hs : e.start? with
    | none =>
      have hb : bookingActive parse now e = false := by simp [bookingActive, hs]
      simp [List.filter_cons, hb, ih]
    | some s =>
      cases he : e.end? with
      | none =>
        have hb : bookingActive parse now e = false := by simp [bookingActive, hs, he]
        simp [List.filter_cons, hb, ih]
      | some en =>
        by_cases hemp : s.dateTime = "" ∨ en.dateTime = ""
        · have hb : bookingActive parse now e = false := by
            simp only [bookingActive, hs, he]
            rw [if_pos hemp]
          simp only [hs, he]
          rw [if_pos hemp, List.filter_cons, hb]
          simpa using ih
        · cases hps : parse s.dateTime with
          | none =>
            have hb : bookingActive parse now e = false := by
              simp only [bookingActive, hs, he]
              rw [if_neg hemp]
              simp [hps]
            simp only [hs, he]
            rw [if_neg hemp]
            rw [hps, List.filter_cons, hb]
            simpa using ih
          | some startTime =>
            cases hpe : parse en.dateTime with
            | none =>
              have hb : bookingActive parse now e = false := by
                simp only [bookingActive, hs, he]
                rw [if_neg hemp]
                simp [hps, hpe]
              simp only [hs, he]
              rw [if_neg hemp]
              rw [hps, hpe, List.filter_cons, hb]
              simpa using ih
            | some endTime =>
              by_cases hact : (startTime < now ∨ startTime = now) ∧ endTime > now
              · have hb : bookingActive parse now e = true := by
                  simp only [bookingActive, hs, he]
                  rw [if_neg hemp]
                  simp only [hps, hpe]
                  exact decide_eq_true (by omega)
                simp only [hs, he]
                rw [if_neg hemp]
                rw [hps, hpe]
                dsimp only
                rw [if_pos hact, List.filter_cons, hb]
                simpa using ih
              · have hb : bookingActive parse now e = false := by
                  simp only [bookingActive, hs, he]
                  rw [if_neg hemp]
                  simp only [hps, hpe]
                  exact decide_eq_false (by omega)
                simp only [hs, he]
                rw [if_neg hemp]
                rw [hps, hpe]
                dsimp only
                rw [if_neg hact, List.filter_cons, hb]
                simpa using ih

/-- Witness for C8 applying the order-preservation equality at a concrete
two-event list (one active, one all-day hence skipped). -/
theorem filterActiveEvents_spec_witness :
    FilterActiveEvents
      (fun str => if str = "13:00Z" then some 780 else
        if str = "15:00Z" then some 900 else none)
      [{ summary := "Lab (alice@example.com)",
         start? := some { dateTime := "13:00Z" },
         end? := some { dateTime := "15:00Z" }, attendees := [] },
       { summary := "All day",
         start? := some { dateTime := "" },
         end? := some { dateTime := "" }, attendees := [] }] 840 =
      ([{ summary := "Lab (alice@example.com)",
          start? := some { dateTime := "13:00Z" },
          end? := some { dateTime := "15:00Z" }, attendees := [] },
        { summary := "All day",
          start? := some { dateTime := "" },
          end? := some { dateTime := "" }, attendees := [] }].filter
        (bookingActive
          (fun str => if str = "13:00Z" then some 780 else
            if str = "15:00Z" then some 900 else none) 840)).map
        (fun e => { summary := e.summary, email := deriveEventEmail e }) :=
  (filterActiveEvents_spec
    (fun str => if str = "13:00Z" then some 780 else
      if str = "15:00Z" then some 900 else none) 840
    [{ summary := "Lab (alice@example.com)",
       start? := some { dateTime := "13:00Z" },
       end? := some { dateTime := "15:00Z" }, attendees := [] },
     { summary := "All day",
       start? := some { dateTime := "" },
       end? := some { dateTime := "" }, attendees := [] }]).1

end EsxiLab

namespace EsxiLab

/-! ## Orchestrator (orchestrator.go)

The external collaborators are response oracles: `VMwareOracle` stands
for the vCenter side of `RestoreVMsWithPasswordRotation` (host lookup,
per-VM `restoreVM`, per-user `RotateESXiUserPassword`), `WGOracle` for
the `WireGuardManager` interface and `EmailOracle` for the `EmailSender`
interface.  Every attempted side effect is recorded as an `OrchAction`
so that theorems can speak about which operations were performed. -/

/-- An inventory machine; `models.VM` also carries the snapshot list,
which none of the selection code reads. -/
structure VM where
  name : String
  deriving DecidableEq, Repr

/-- `service.UserVMPair`: a user and all their assigned VMs. -/
structure UserVMPair where
  User : String
  VMs : List String
  deriving DecidableEq, Repr

/-- Go's `<` on strings: byte-lexicographic order, which on UTF-8 data
coincides with this character-lexicographic order. -/
def charListLt : List Char → List Char → Bool
  | [], [] => false
  | [], _ :: _ => true
  | _ :: _, [] => false
  | a :: as, b :: bs => if a < b then true else if b < a then false else charListLt as bs

/-- Insertion into a list sorted by `User` (model of `sort.Slice` over
the unique keys of `UserVMMappings`). -/
def insertPairSorted (p : UserVMPair) : List UserVMPair → List UserVMPair
  | [] => [p]
  | q :: qs =>
    if charListLt p.User.data q.User.data then p :: q :: qs
    else q :: insertPairSorted p qs

/-- `ESXiConfig.UserVMPairs`: the user→VMs mapping in ascending user
order (deterministic iteration of the Go map). -/
def UserVMPairs (mappings : List (String × List String)) : List UserVMPair :=
  mappings.foldr (fun kv acc => insertPairSorted { User := kv.1, VMs := kv.2 } acc) []

/-- `BuildInventoryMap`: the membership test over inventory VM names. -/
def BuildInventoryMap (vms : List VM) : String → Bool :=
  fun name => vms.any (fun vm => vm.name = name)

/-- The loop of `SelectConfiguredVMs`: keep each configured pair's VMs
that exist in inventory, skip pairs with none, and break as soon as the
accumulated pair count reaches the event count (checked after each
append). -/
def selectConfiguredVMsLoop (inventoryVMs : String → Bool) (eventCount : Nat) :
    List UserVMPair → List UserVMPair → List UserVMPair
  | acc, [] => acc
  | acc, p :: ps =>
    let validVMs := p.VMs.filter inventoryVMs
    if validVMs = [] then selectConfiguredVMsLoop inventoryVMs eventCount acc ps
    else
      let acc2 := acc ++ [{ User := p.User, VMs := validVMs }]
      if eventCount ≤ acc2.length then acc2
      else selectConfiguredVMsLoop inventoryVMs eventCount acc2 ps

/-- `SelectConfiguredVMs`. -/
def SelectConfiguredVMs (pairs : List UserVMPair) (inventoryVMs : String → Bool)
    (eventCount : Nat) : List UserVMPair :=
  selectConfiguredVMsLoop inventoryVMs eventCount [] pairs

/-- `SelectVMsToRestore`: configured pairs filtered by inventory, capped
by the event count (the shortage warning is log-only). -/
def SelectVMsToRestore (mappings : List (String × List String)) (vms : List VM)
    (eventCount : Nat) : List UserVMPair :=
  SelectConfiguredVMs (UserVMPairs mappings) (BuildInventoryMap vms) eventCount

/-- `SelectAllVMs`: every configured pair with at least one VM present in
the inventory; empty inventory yields nothing. -/
def SelectAllVMs (mappings : List (String × List String)) (vms : List VM) :
    List UserVMPair :=
  if vms = [] then []
  else
    (UserVMPairs mappings).foldl (fun acc p =>
      let validVMs := p.VMs.filter (BuildInventoryMap vms)
      if validVMs = [] then acc
      else acc ++ [{ User := p.User, VMs := validVMs }]) []

/-- One attempted side effect of the restore pipeline. -/
inductive OrchAction where
  | restoreVM (vm : String)
  | rotatePassword (user : String)
  | rotateKey (user : String)
  | registerPeer (user : String) (idx : Nat)
  | generateConfig (user : String) (idx : Nat)
  | sendEmail (recipient vm user password : String) (hasAttachment : Bool)
  deriving DecidableEq, Repr

/-- The vCenter responses consumed by `RestoreVMsWithPasswordRotation`. -/
structure VMwareOracle where
  hostResult : Except String Unit
  restoreResult : String → String → Except String Unit
  rotateResult : String → Except String String

/-- The `WireGuardManager` responses. -/
structure WGOracle where
  rotateUserKey : String → Except String (String × String)
  generateClientConfig : String → Nat → Except String String

/-- Insert-or-overwrite on an association list, the model of Go map
assignment (`m[k] = v`). -/
def assocSet (m : List (String × String)) (k v : String) : List (String × String) :=
  if m.any (fun kv => kv.1 = k) then m.map (fun kv => if kv.1 = k then (k, v) else kv)
  else m ++ [(k, v)]

/-- Go map lookup (`v, ok := m[k]`). -/
def assocGet (m : List (String × String)) (k : String) : Option String :=
  (m.find? (fun kv => kv.1 = k)).map (fun kv => kv.2)

/-- The loop of `RestoreVMsWithPasswordRotation`: restore every VM (a
failure appends an error and skips that VM's rotation), then rotate the
password of the user at the same index when one exists; rotation failures
append to the same error list; successes record the new password. -/
def restoreRotateLoop (o : VMwareOracle) (snapshotName : String) :
    List String → List String → List String → List (String × String) →
    List OrchAction → List String × List (String × String) × List OrchAction
  | [], _, errors, passwords, log => (errors, passwords, log)
  | vmName :: vms, users, errors, passwords, log =>
    match o.restoreResult vmName snapshotName with
    | Except.error e =>
      restoreRotateLoop o snapshotName vms users.tail
        (errors ++ ["failed to restore " ++ vmName ++ ": " ++ e]) passwords
        (log ++ [OrchAction.restoreVM vmName])
    | Except.ok _ =>
      match users with
      | [] =>
        restoreRotateLoop o snapshotName vms [] errors passwords
          (log ++ [OrchAction.restoreVM vmName])
      | username :: restUsers =>
        match o.rotateResult username with
        | Except.error e =>
          restoreRotateLoop o snapshotName vms restUsers
            (errors ++ ["failed to rotate password for user " ++ username ++ ": " ++ e])
            passwords
            (log ++ [OrchAction.restoreVM vmName, OrchAction.rotatePassword username])
        | Except.ok newPassword =>
          restoreRotateLoop o snapshotName vms restUsers errors
            (assocSet passwords username newPassword)
            (log ++ [OrchAction.restoreVM vmName, OrchAction.rotatePassword username])

/-- `RestoreVMsWithPasswordRotation`: a failed host lookup aborts with a
single error and no attempts; otherwise the loop above. -/
def RestoreVMsWithPasswordRotation (o : VMwareOracle) (vmNames userNames : List String)
    (snapshotName : String) :
    List String × List (String × String) × List OrchAction :=
  match o.hostResult with
  | Except.error e => (["failed to get ESXi host: " ++ e], [], [])
  | Except.ok _ => restoreRotateLoop o snapshotName vmNames userNames [] [] []

end EsxiLab

namespace EsxiLab

/-- `service.EmailAttachment`. -/
structure EmailAttachment where
  Filename : String
  Content : String
  MimeType : String
  deriving DecidableEq, Repr

/-- The WireGuard phase of `Orchestrator.RestoreVMs`: per pair (indexed),
rotate the user's key (on failure skip the rest for that user), attempt
peer registration (result only logged), then generate the client config
(on failure nothing is stored); successes are stored per user. -/
def wireguardLoop (wg : WGOracle) :
    Nat → List UserVMPair → List (String × String) → List OrchAction →
    List (String × String) × List OrchAction
  | _, [], configs, log => (configs, log)
  | i, p :: ps, configs, log =>
    match wg.rotateUserKey p.User with
    | Except.error _ =>
      wireguardLoop wg (i + 1) ps configs (log ++ [OrchAction.rotateKey p.User])
    | Except.ok _ =>
      let log1 := log ++ [OrchAction.rotateKey p.User, OrchAction.registerPeer p.User i]
      match wg.generateClientConfig p.User i with
      | Except.error _ =>
        wireguardLoop wg (i + 1) ps configs (log1 ++ [OrchAction.generateConfig p.User i])
      | Except.ok config =>
        wireguardLoop wg (i + 1) ps (assocSet configs p.User config)
          (log1 ++ [OrchAction.generateConfig p.User i])

/-- The notification phase of `Orchestrator.RestoreVMs`: per pair
(indexed), a user with a rotated password and — when a sender is
configured, the index has a matching active event and that event carries
a non-empty email — is sent the password email, with the WireGuard config
attached when one was stored; delivery failures are only logged. -/
def emailLoop (emailConfigured : Bool) (passwords configs : List (String × String))
    (activeEvents : List EventInfo) :
    Nat → List UserVMPair → List OrchAction → List OrchAction
  | _, [], log => log
  | i, p :: ps, log =>
    match assocGet passwords p.User with
    | none => emailLoop emailConfigured passwords configs activeEvents (i + 1) ps log
    | some password =>
      if emailConfigured ∧ i < activeEvents.length ∧
          (activeEvents.getD i { summary := "", email := "" }).email ≠ "" then
        emailLoop emailConfigured passwords configs activeEvents (i + 1) ps
          (log ++ [OrchAction.sendEmail
            (activeEvents.getD i { summary := "", email := "" }).email
            (p.VMs.headD "") p.User password
            (assocGet configs p.User).isSome])
      else emailLoop emailConfigured passwords configs activeEvents (i + 1) ps log

/-- The flat VM list handed to the VMware service: all VMs of all pairs
in order. -/
def vmsToRestoreOf (pairs : List UserVMPair) : List String :=
  pairs.foldl (fun acc p => acc ++ p.VMs) []

/-- The user list aligned with `vmsToRestoreOf`: the pair's user for its
first VM, the empty user for the additional VMs. -/
def usersForRestoreOf (pairs : List UserVMPair) : List String :=
  pairs.foldl (fun acc p =>
    acc ++ (match p.VMs with
      | [] => []
      | _ :: vs => p.User :: vs.map (fun _ => ""))) []

/-- The snapshot selector handed to the VMware service: the configured
snapshot name, with the find-latest marker as default. -/
def snapshotNameOf (snapshotName? : Option String) : String :=
  match snapshotName? with
  | some n => n
  | none => "<latest>"

/-- `Orchestrator.RestoreVMs`: restore and rotate through the VMware
service; when at least one password was rotated, run the WireGuard phase
(when a manager is configured) and the notification phase; finally report
failure exactly when the collected error list is non-empty, with the
error count measured against the flat VM list. -/
def RestoreVMs (o : VMwareOracle) (wg? : Option WGOracle) (emailConfigured : Bool)
    (snapshotName? : Option String) (pairs : List UserVMPair)
    (activeEvents : List EventInfo) : Except String Unit × List OrchAction :=
  let r := RestoreVMsWithPasswordRotation o (vmsToRestoreOf pairs)
    (usersForRestoreOf pairs) (snapshotNameOf snapshotName?)
  let restoreErrors := r.1
  let passwords := r.2.1
  let afterAll :=
    if passwords.length > 0 then
      let wgres := match wg? with
        | none => ([], r.2.2)
        | some wg => wireguardLoop wg 0 pairs [] r.2.2
      emailLoop emailConfigured passwords wgres.1 activeEvents 0 pairs wgres.2
    else r.2.2
  if restoreErrors.length > 0 then
    (Except.error ("restore partially failed: " ++ toString restoreErrors.length ++
      " of " ++ toString (vmsToRestoreOf pairs).length ++ " VMs had errors"), afterAll)
  else (Except.ok (), afterAll)

/-- The dependencies of one `Orchestrator.Run` invocation. -/
structure OrchDeps where
  listVMs : Except String (List VM)
  listEvents : Except String (List CalEvent)
  parse : String → Option Int
  now : Int
  vmware : VMwareOracle
  wg? : Option WGOracle
  emailConfigured : Bool
  mappings : List (String × List String)
  snapshotName? : Option String

/-- `Orchestrator.Run`: fetch inventory (failure is fatal), fetch and
filter calendar events (failure is fatal), select all configured VMs
present in inventory; with no selected pairs, fail when bookings are
active and succeed otherwise; with selected pairs, always proceed to
restore regardless of whether any booking is active. -/
def Run (d : OrchDeps) : Except String Unit × List OrchAction :=
  match d.listVMs with
  | Except.error e => (Except.error e, [])
  | Except.ok vmList =>
    match d.listEvents with
    | Except.error e => (Except.error e, [])
    | Except.ok events =>
      let activeEvents := FilterActiveEvents d.parse events d.now
      let pairs := SelectAllVMs d.mappings vmList
      if pairs = [] then
        if activeEvents.length > 0 then
          (Except.error "no VMs available in inventory", [])
        else (Except.ok (), [])
      else RestoreVMs d.vmware d.wg? d.emailConfigured d.snapshotName? pairs activeEvents

end EsxiLab

namespace EsxiLab

theorem restoreRotateLoop_log_mono (o : VMwareOracle) (snap : String) :
    ∀ (vms users errors : List String) (pwds : List (String × String))
      (log : List OrchAction),
      ∃ ext, (restoreRotateLoop o snap vms users errors pwds log).2.2 = log ++ ext := by
  intro vms
  induction vms with
  | nil =>
    intro users errors pwds log
    exact ⟨[], by simp [restoreRotateLoop]⟩
  | cons vm vms ih =>
    intro users errors pwds log
    rw [restoreRotateLoop.eq_def]
    dsimp only
    cases hres : o.restoreResult vm snap with
    | error e =>
      dsimp only
      obtain ⟨ext, hext⟩ := ih users.tail
        (errors ++ ["failed to restore " ++ vm ++ ": " ++ e]) pwds
        (log ++ [OrchAction.restoreVM vm])
      rw [hext]
      exact ⟨[OrchAction.restoreVM vm] ++ ext, by simp⟩
    | ok u =>
      cases users with
      | nil =>
        dsimp only
        obtain ⟨ext, hext⟩ := ih [] errors pwds (log ++ [OrchAction.restoreVM vm])
        rw [hext]
        exact ⟨[OrchAction.restoreVM vm] ++ ext, by simp⟩
      | cons username restUsers =>
        dsimp only
        cases hrot : o.rotateResult username with
        | error e =>
          dsimp only
          obtain ⟨ext, hext⟩ := ih restUsers
            (errors ++ ["failed to rotate password for user " ++ username ++ ": " ++ e])
            pwds (log ++ [OrchAction.restoreVM vm, OrchAction.rotatePassword username])
          rw [hext]
          exact ⟨[OrchAction.restoreVM vm, OrchAction.rotatePassword username] ++ ext,
            by simp⟩
        | ok newPassword =>
          dsimp only
          obtain ⟨ext, hext⟩ := ih restUsers errors (assocSet pwds username newPassword)
            (log ++ [OrchAction.restoreVM vm, OrchAction.rotatePassword username])
          rw [hext]
          exact ⟨[OrchAction.restoreVM vm, OrchAction.rotatePassword username] ++ ext,
            by simp⟩

theorem restoreRotateLoop_attempts_all (o : VMwareOracle) (snap : String) :
    ∀ (vms users errors : List String) (pwds : List (String × String))
      (log : List OrchAction) (vm : String), vm ∈ vms →
      OrchAction.restoreVM vm ∈ (restoreRotateLoop o snap vms users errors pwds log).2.2 := by
  intro vms
  induction vms with
  | nil => intro users errors pwds log vm hvm; simp at hvm
  | cons vm0 vms ih =>
    intro users errors pwds log vm hvm
    rw [restoreRotateLoop.eq_def]
    dsimp only
    rcases List.mem_cons.1 hvm with hvm | hvm
    · subst hvm
      cases hres : o.restoreResult vm snap with
      | error e =>
        dsimp only
        obtain ⟨ext, hext⟩ := restoreRotateLoop_log_mono o snap vms users.tail
          (errors ++ ["failed to restore " ++ vm ++ ": " ++ e]) pwds
          (log ++ [OrchAction.restoreVM vm])
        rw [hext]
        simp
      | ok u =>
        cases users with
        | nil =>
          dsimp only
          obtain ⟨ext, hext⟩ := restoreRotateLoop_log_mono o snap vms [] errors pwds
            (log ++ [OrchAction.restoreVM vm])
          rw [hext]
          simp
        | cons username restUsers =>
          dsimp only
          cases hrot : o.rotateResult username with
          | error e =>
            dsimp only
            obtain ⟨ext, hext⟩ := restoreRotateLoop_log_mono o snap vms restUsers
              (errors ++ ["failed to rotate password for user " ++ username ++ ": " ++ e])
              pwds (log ++ [OrchAction.restoreVM vm, OrchAction.rotatePassword username])
            rw [hext]
            simp
          | ok newPassword =>
            dsimp only
            obtain ⟨ext, hext⟩ := restoreRotateLoop_log_mono o snap vms restUsers errors
              (assocSet pwds username newPassword)
              (log ++ [OrchAction.restoreVM vm, OrchAction.rotatePassword username])
            rw [hext]
            simp
    · cases hres : o.restoreResult vm0 snap with
      | error e =>
        dsimp only
        exact ih _ _ _ _ vm hvm
      | ok u =>
        cases users with
        | nil =>
          dsimp only
          exact ih _ _ _ _ vm hvm
        | cons username restUsers =>
          dsimp only
          cases hrot : o.rotateResult username with
          | error e =>
            dsimp only
            exact ih _ _ _ _ vm hvm
          | ok newPassword =>
            dsimp only
            exact ih _ _ _ _ vm hvm

theorem wireguardLoop_log_mono (wg : WGOracle) :
    ∀ (pairs : List UserVMPair) (i : Nat) (configs : List (String × String))
      (log : List OrchAction),
      ∃ ext, (wireguardLoop wg i pairs configs log).2 = log ++ ext := by
  intro pairs
  induction pairs with
  | nil => intro i configs log; exact ⟨[], by simp [wireguardLoop]⟩
  | cons p ps ih =>
    intro i configs log
    rw [wireguardLoop.eq_def]
    dsimp only
    cases hr : wg.rotateUserKey p.User with
    | error e =>
      dsimp only
      obtain ⟨ext, hext⟩ := ih (i + 1) configs (log ++ [OrchAction.rotateKey p.User])
      rw [hext]
      exact ⟨[OrchAction.rotateKey p.User] ++ ext, by simp⟩
    | ok kp =>
      dsimp only
      cases hg : wg.generateClientConfig p.User i with
      | error e =>
        dsimp only
        obtain ⟨ext, hext⟩ := ih (i + 1) configs
          (log ++ [OrchAction.rotateKey p.User, OrchAction.registerPeer p.User i] ++
            [OrchAction.generateConfig p.User i])
        rw [hext]
        exact ⟨[OrchAction.rotateKey p.User, OrchAction.registerPeer p.User i,
          OrchAction.generateConfig p.User i] ++ ext, by simp⟩
      | ok config =>
        dsimp only
        obtain ⟨ext, hext⟩ := ih (i + 1) (assocSet configs p.User config)
          (log ++ [OrchAction.rotateKey p.User, OrchAction.registerPeer p.User i] ++
            [OrchAction.generateConfig p.User i])
        rw [hext]
        exact ⟨[OrchAction.rotateKey p.User, OrchAction.registerPeer p.User i,
          OrchAction.generateConfig p.User i] ++ ext, by simp⟩

theorem emailLoop_log_mono (emailConfigured : Bool)
    (passwords configs : List (String × String)) (activeEvents : List EventInfo) :
    ∀ (pairs : List UserVMPair) (i : Nat) (log : List OrchAction),
      ∃ ext, emailLoop emailConfigured passwords configs activeEvents i pairs log =
        log ++ ext := by
  intro pairs
  induction pairs with
  | nil => intro i log; exact ⟨[], by simp [emailLoop]⟩
  | cons p ps ih =>
    intro i log
    rw [emailLoop.eq_def]
    dsimp only
    cases hp : assocGet passwords p.User with
    | none =>
      dsimp only
      exact ih (i + 1) log
    | some password =>
      dsimp only
      by_cases hc : emailConfigured = true ∧ i < activeEvents.length ∧
          (activeEvents.getD i { summary := "", email := "" }).email ≠ ""
      · rw [if_pos hc]
        obtain ⟨ext, hext⟩ := ih (i + 1)
          (log ++ [OrchAction.sendEmail
            (activeEvents.getD i { summary := "", email := "" }).email
            (p.VMs.headD "") p.User password (assocGet configs p.User).isSome])
        rw [hext]
        exact ⟨[OrchAction.sendEmail
          (activeEvents.getD i { summary := "", email := "" }).email
          (p.VMs.headD "") p.User password (assocGet configs p.User).isSome] ++ ext,
          by simp⟩
      · rw [if_neg hc]
        exact ih (i + 1) log

end EsxiLab

namespace EsxiLab

theorem emailLoop_mem (passwords configs : List (String × String))
    (activeEvents : List EventInfo) :
    ∀ (pairs : List UserVMPair) (i0 : Nat) (log : List OrchAction) (j : Nat)
      (p : UserVMPair) (password : String),
      pairs[j]? = some p →
      assocGet passwords p.User = some password →
      i0 + j < activeEvents.length →
      (activeEvents.getD (i0 + j) { summary := "", email := "" }).email ≠ "" →
      OrchAction.sendEmail
        (activeEvents.getD (i0 + j) { summary := "", email := "" }).email
        (p.VMs.headD "") p.User password (assocGet configs p.User).isSome ∈
        emailLoop true passwords configs activeEvents i0 pairs log := by
  intro pairs
  induction pairs with
  | nil => intro i0 log j p password hj; simp at hj
  | cons q ps ih =>
    intro i0 log j p password hj hpw hlt hne
    rw [emailLoop.eq_def]
    dsimp only
    cases j with
    | zero =>
      have hq : q = p := by simpa using hj
      subst hq
      rw [hpw]
      dsimp only
      rw [Nat.add_zero] at hlt hne ⊢
      have hc : (true = true) ∧ i0 < activeEvents.length ∧
          (activeEvents.getD i0 { summary := "", email := "" }).email ≠ "" :=
        ⟨rfl, hlt, hne⟩
      rw [if_pos hc]
      obtain ⟨ext, hext⟩ := emailLoop_log_mono true passwords configs activeEvents
        ps (i0 + 1)
        (log ++ [OrchAction.sendEmail
          (activeEvents.getD i0 { summary := "", email := "" }).email
          (q.VMs.headD "") q.User password (assocGet configs q.User).isSome])
      rw [hext]
      simp
    | succ j =>
      have hj' : ps[j]? = some p := by simpa using hj
      have heq : i0 + 1 + j = i0 + (j + 1) := by omega
      rw [← heq] at hlt hne ⊢
      cases hq : assocGet passwords q.User with
      | none =>
        dsimp only
        exact ih (i0 + 1) log j p password hj' hpw hlt hne
      | some pw0 =>
        dsimp only
        by_cases hc : (true = true) ∧ i0 < activeEvents.length ∧
            (activeEvents.getD i0 { summary := "", email := "" }).email ≠ ""
        · rw [if_pos hc]
          exact ih (i0 + 1) _ j p password hj' hpw hlt hne
        · rw [if_neg hc]
          exact ih (i0 + 1) log j p password hj' hpw hlt hne

theorem assocGet_some_nonempty (m : List (String × String)) (k v : String)
    (h : assocGet m k = some v) : 0 < m.length := by
  cases m with
  | nil => simp [assocGet] at h
  | cons kv m => simp

theorem restoreVMs_log_extends (o : VMwareOracle) (wg? : Option WGOracle)
    (emailConfigured : Bool) (snap? : Option String) (pairs : List UserVMPair)
    (events : List EventInfo) :
    ∃ ext, (RestoreVMs o wg? emailConfigured snap? pairs events).2 =
      (RestoreVMsWithPasswordRotation o (vmsToRestoreOf pairs)
        (usersForRestoreOf pairs) (snapshotNameOf snap?)).2.2 ++ ext := by
  rw [RestoreVMs.eq_def]
  dsimp only
  by_cases hp : 0 < (RestoreVMsWithPasswordRotation o (vmsToRestoreOf pairs)
      (usersForRestoreOf pairs) (snapshotNameOf snap?)).2.1.length
  · rw [if_pos hp]
    cases hwg : wg? with
    | none =>
      dsimp only
      obtain ⟨ext, hext⟩ := emailLoop_log_mono emailConfigured
        (RestoreVMsWithPasswordRotation o (vmsToRestoreOf pairs)
          (usersForRestoreOf pairs) (snapshotNameOf snap?)).2.1
        [] events pairs 0
        (RestoreVMsWithPasswordRotation o (vmsToRestoreOf pairs)
          (usersForRestoreOf pairs) (snapshotNameOf snap?)).2.2
      refine ⟨ext, ?_⟩
      by_cases herr : 0 < (RestoreVMsWithPasswordRotation o (vmsToRestoreOf pairs)
          (usersForRestoreOf pairs) (snapshotNameOf snap?)).1.length
      · rw [if_pos herr]
        exact hext
      · rw [if_neg herr]
        exact hext
    | some wg =>
      dsimp only
      obtain ⟨ext0, hext0⟩ := wireguardLoop_log_mono wg pairs 0 []
        (RestoreVMsWithPasswordRotation o (vmsToRestoreOf pairs)
          (usersForRestoreOf pairs) (snapshotNameOf snap?)).2.2
      obtain ⟨ext1, hext1⟩ := emailLoop_log_mono emailConfigured
        (RestoreVMsWithPasswordRotation o (vmsToRestoreOf pairs)
          (usersForRestoreOf pairs) (snapshotNameOf snap?)).2.1
        (wireguardLoop wg 0 pairs []
          (RestoreVMsWithPasswordRotation o (vmsToRestoreOf pairs)
            (usersForRestoreOf pairs) (snapshotNameOf snap?)).2.2).1
        events pairs 0
        (wireguardLoop wg 0 pairs []
          (RestoreVMsWithPasswordRotation o (vmsToRestoreOf pairs)
            (usersForRestoreOf pairs) (snapshotNameOf snap?)).2.2).2
      refine ⟨ext0 ++ ext1, ?_⟩
      by_cases herr : 0 < (RestoreVMsWithPasswordRotation o (vmsToRestoreOf pairs)
          (usersForRestoreOf pairs) (snapshotNameOf snap?)).1.length
      · rw [if_pos herr]
        rw [hext1, hext0]
        simp
      · rw [if_neg herr]
        rw [hext1, hext0]
        simp
  · rw [if_neg hp]
    refine ⟨[], ?_⟩
    by_cases herr : 0 < (RestoreVMsWithPasswordRotation o (vmsToRestoreOf pairs)
        (usersForRestoreOf pairs) (snapshotNameOf snap?)).1.length
    · rw [if_pos herr]
      simp
    · rw [if_neg herr]
      simp

end EsxiLab

namespace EsxiLab

/-- C7 (amended): the run result is the partial-failure error exactly
when the error list collected by the restore-and-rotate phase is
non-empty, and that list includes per-user password-rotation failures —
the reported counts measure this combined list against the flat VM list,
so a rotation failure alone does produce the partial-failure result and
does enter the failed count (second conjunct: with one machine whose
restore succeeds and whose user's rotation fails, the phase yields one
error, no passwords, after attempting both).  Third conjunct: whatever
the error list, the notification for every user with a rotated password
and a matching active event with a non-empty address is still sent
before the result is reported. -/
theorem restoreVMs_failure_accounting :
    (∀ (o : VMwareOracle) (wg? : Option WGOracle) (emailConfigured : Bool)
      (snap? : Option String) (pairs : List UserVMPair) (events : List EventInfo),
      (RestoreVMs o wg? emailConfigured snap? pairs events).1 =
        (if 0 < (RestoreVMsWithPasswordRotation o (vmsToRestoreOf pairs)
            (usersForRestoreOf pairs) (snapshotNameOf snap?)).1.length then
          Except.error ("restore partially failed: " ++
            toString (RestoreVMsWithPasswordRotation o (vmsToRestoreOf pairs)
              (usersForRestoreOf pairs) (snapshotNameOf snap?)).1.length ++ " of " ++
            toString (vmsToRestoreOf pairs).length ++ " VMs had errors")
        else Except.ok ())) ∧
    (∀ (o : VMwareOracle) (vm user snap e : String),
      o.hostResult = Except.ok () → o.restoreResult vm snap = Except.ok () →
      o.rotateResult user = Except.error e →
      RestoreVMsWithPasswordRotation o [vm] [user] snap =
        (["failed to rotate password for user " ++ user ++ ": " ++ e], [],
         [OrchAction.restoreVM vm, OrchAction.rotatePassword user])) ∧
    (∀ (o : VMwareOracle) (wg? : Option WGOracle) (snap? : Option String)
      (pairs : List UserVMPair) (events : List EventInfo) (j : Nat)
      (p : UserVMPair) (password : String),
      pairs[j]? = some p →
      assocGet (RestoreVMsWithPasswordRotation o (vmsToRestoreOf pairs)
        (usersForRestoreOf pairs) (snapshotNameOf snap?)).2.1 p.User = some password →
      j < events.length →
      (events.getD j { summary := "", email := "" }).email ≠ "" →
      ∃ att, OrchAction.sendEmail (events.getD j { summary := "", email := "" }).email
        (p.VMs.headD "") p.User password att ∈
        (RestoreVMs o wg? true snap? pairs events).2) := by
  refine ⟨?_, ?_, ?_⟩
  · intro o wg? emailConfigured snap? pairs events
    rw [RestoreVMs.eq_def]
    dsimp only
    by_cases herr : 0 < (RestoreVMsWithPasswordRotation o (vmsToRestoreOf pairs)
        (usersForRestoreOf pairs) (snapshotNameOf snap?)).1.length
    · rw [if_pos herr, if_pos herr]
    · rw [if_neg herr, if_neg herr]
  · intro o vm user snap e hhost hres hrot
    rw [RestoreVMsWithPasswordRotation, hhost]
    dsimp only
    rw [restoreRotateLoop.eq_def]
    dsimp only
    rw [hres]
    dsimp only
    rw [hrot]
    dsimp only
    simp [restoreRotateLoop]
  · intro o wg? snap? pairs events j p password hj hpw hlt hne
    have hpwlen : 0 < (RestoreVMsWithPasswordRotation o (vmsToRestoreOf pairs)
        (usersForRestoreOf pairs) (snapshotNameOf snap?)).2.1.length :=
      assocGet_some_nonempty _ _ _ hpw
    rw [RestoreVMs.eq_def]
    dsimp only
    by_cases herr : 0 < (RestoreVMsWithPasswordRotation o (vmsToRestoreOf pairs)
        (usersForRestoreOf pairs) (snapshotNameOf snap?)).1.length
    · rw [if_pos herr]
      dsimp only
      rw [if_pos hpwlen]
      cases hwg : wg? with
      | none =>
        dsimp only
        refine ⟨(assocGet [] p.User).isSome, ?_⟩
        have h := emailLoop_mem (RestoreVMsWithPasswordRotation o (vmsToRestoreOf pairs)
            (usersForRestoreOf pairs) (snapshotNameOf snap?)).2.1 [] events pairs 0
          (RestoreVMsWithPasswordRotation o (vmsToRestoreOf pairs)
            (usersForRestoreOf pairs) (snapshotNameOf snap?)).2.2 j p password hj hpw
          (by simpa using hlt) (by simpa using hne)
        simpa using h
      | some wg =>
        dsimp only
        refine ⟨(assocGet (wireguardLoop wg 0 pairs []
          (RestoreVMsWithPasswordRotation o (vmsToRestoreOf pairs)
            (usersForRestoreOf pairs) (snapshotNameOf snap?)).2.2).1 p.User).isSome, ?_⟩
        have h := emailLoop_mem (RestoreVMsWithPasswordRotation o (vmsToRestoreOf pairs)
            (usersForRestoreOf pairs) (snapshotNameOf snap?)).2.1
          (wireguardLoop wg 0 pairs []
            (RestoreVMsWithPasswordRotation o (vmsToRestoreOf pairs)
              (usersForRestoreOf pairs) (snapshotNameOf snap?)).2.2).1 events pairs 0
          (wireguardLoop wg 0 pairs []
            (RestoreVMsWithPasswordRotation o (vmsToRestoreOf pairs)
              (usersForRestoreOf pairs) (snapshotNameOf snap?)).2.2).2 j p password hj hpw
          (by simpa using hlt) (by simpa using hne)
        simpa using h
    · rw [if_neg herr]
      dsimp only
      rw [if_pos hpwlen]
      cases hwg : wg? with
      | none =>
        dsimp only
        refine ⟨(assocGet [] p.User).isSome, ?_⟩
        have h := emailLoop_mem (RestoreVMsWithPasswordRotation o (vmsToRestoreOf pairs)
            (usersForRestoreOf pairs) (snapshotNameOf snap?)).2.1 [] events pairs 0
          (RestoreVMsWithPasswordRotation o (vmsToRestoreOf pairs)
            (usersForRestoreOf pairs) (snapshotNameOf snap?)).2.2 j p password hj hpw
          (by simpa using hlt) (by simpa using hne)
        simpa using h
      | some wg =>
        dsimp only
        refine ⟨(assocGet (wireguardLoop wg 0 pairs []
          (RestoreVMsWithPasswordRotation o (vmsToRestoreOf pairs)
            (usersForRestoreOf pairs) (snapshotNameOf snap?)).2.2).1 p.User).isSome, ?_⟩
        have h := emailLoop_mem (RestoreVMsWithPasswordRotation o (vmsToRestoreOf pairs)
            (usersForRestoreOf pairs) (snapshotNameOf snap?)).2.1
          (wireguardLoop wg 0 pairs []
            (RestoreVMsWithPasswordRotation o (vmsToRestoreOf pairs)
              (usersForRestoreOf pairs) (snapshotNameOf snap?)).2.2).1 events pairs 0
          (wireguardLoop wg 0 pairs []
            (RestoreVMsWithPasswordRotation o (vmsToRestoreOf pairs)
              (usersForRestoreOf pairs) (snapshotNameOf snap?)).2.2).2 j p password hj hpw
          (by simpa using hlt) (by simpa using hne)
        simpa using h

end EsxiLab

namespace EsxiLab

/-- C7 counterexample: one machine, restore succeeds, the user's password
rotation fails — the run reports the partial-failure error counting 1 of
1 VMs failed, although no machine restore failed; the claim says this
run is not a partial failure and the counts are unchanged. -/
theorem restoreVMs_rotationOnly_failure_counterexample :
    RestoreVMs
      { hostResult := Except.ok (), restoreResult := fun _ _ => Except.ok (),
        rotateResult := fun _ => Except.error "permission denied" }
      none false none [{ User := "alice", VMs := ["vm-alice"] }]
      [{ summary := "S", email := "alice@example.com" }] =
    (Except.error "restore partially failed: 1 of 1 VMs had errors",
     [OrchAction.restoreVM "vm-alice", OrchAction.rotatePassword "alice"]) := by
  rfl

/-- Witness for C7 (amended) at a concrete rotation-only failure. -/
theorem restoreVMs_failure_accounting_witness :
    RestoreVMsWithPasswordRotation
      { hostResult := Except.ok (), restoreResult := fun _ _ => Except.ok (),
        rotateResult := fun _ => Except.error "permission denied" }
      ["vm-bob"] ["bob"] "<latest>" =
      (["failed to rotate password for user bob: permission denied"], [],
       [OrchAction.restoreVM "vm-bob", OrchAction.rotatePassword "bob"]) :=
  restoreVMs_failure_accounting.2.1
    { hostResult := Except.ok (), restoreResult := fun _ _ => Except.ok (),
      rotateResult := fun _ => Except.error "permission denied" }
    "vm-bob" "bob" "<latest>" "permission denied" rfl rfl rfl

end EsxiLab

namespace EsxiLab

/-- C4 (amended): with inventory and booking fetches succeeding, the
orchestrator terminates in Done without performing anything only when no
assignment is selected AND no booking is active; with at least one active
booking but zero selected assignments it terminates in Error; and with
selected assignments it always proceeds to the restore pipeline — even
when no booking is active — attempting a restore of every selected VM
(snapshot revert happens on every run, as the source documents). -/
theorem run_terminal_states (d : OrchDeps) (vms : List VM) (events : List CalEvent)
    (hv : d.listVMs = Except.ok vms) (he : d.listEvents = Except.ok events) :
    (FilterActiveEvents d.parse events d.now = [] → SelectAllVMs d.mappings vms = [] →
      Run d = (Except.ok (), [])) ∧
    (FilterActiveEvents d.parse events d.now ≠ [] → SelectAllVMs d.mappings vms = [] →
      Run d = (Except.error "no VMs available in inventory", [])) ∧
    (SelectAllVMs d.mappings vms ≠ [] →
      Run d = RestoreVMs d.vmware d.wg? d.emailConfigured d.snapshotName?
        (SelectAllVMs d.mappings vms) (FilterActiveEvents d.parse events d.now)) ∧
    (SelectAllVMs d.mappings vms ≠ [] → d.vmware.hostResult = Except.ok () →
      ∀ vm ∈ vmsToRestoreOf (SelectAllVMs d.mappings vms),
        OrchAction.restoreVM vm ∈ (Run d).2) := by
  have hrun : ∀ _ : SelectAllVMs d.mappings vms ≠ [],
      Run d = RestoreVMs d.vmware d.wg? d.emailConfigured d.snapshotName?
        (SelectAllVMs d.mappings vms) (FilterActiveEvents d.parse events d.now) := by
    intro hne
    rw [Run.eq_def, hv, he]
    dsimp only
    rw [if_neg hne]
  refine ⟨?_, ?_, fun hne => hrun hne, ?_⟩
  · intro h1 h2
    rw [Run.eq_def, hv, he]
    dsimp only
    rw [h2, h1]
    simp
  · intro h1 h2
    rw [Run.eq_def, hv, he]
    dsimp only
    rw [h2]
    rw [if_pos rfl, if_pos (List.length_pos.2 h1)]
  · intro hne hhost vm hvm
    rw [hrun hne]
    obtain ⟨ext, hext⟩ := restoreVMs_log_extends d.vmware d.wg? d.emailConfigured
      d.snapshotName? (SelectAllVMs d.mappings vms)
      (FilterActiveEvents d.parse events d.now)
    rw [hext]
    have hmem : OrchAction.restoreVM vm ∈
        (RestoreVMsWithPasswordRotation d.vmware
          (vmsToRestoreOf (SelectAllVMs d.mappings vms))
          (usersForRestoreOf (SelectAllVMs d.mappings vms))
          (snapshotNameOf d.snapshotName?)).2.2 := by
      rw [RestoreVMsWithPasswordRotation, hhost]
      dsimp only
      exact restoreRotateLoop_attempts_all _ _ _ _ _ _ _ vm hvm
    exact List.mem_append_left _ hmem

/-- C4 counterexample: fetches succeed, no booking is active, yet the run
restores (and rotates) the configured machine and terminates Done — the
claim says a run with no active booking terminates Done without
performing any restore. -/
theorem run_restores_without_bookings_counterexample :
    Run { listVMs := Except.ok [{ name := "vm-alice" }], listEvents := Except.ok [],
          parse := fun _ => none, now := 0,
          vmware := { hostResult := Except.ok (),
                      restoreResult := fun _ _ => Except.ok (),
                      rotateResult := fun _ => Except.ok "pw" },
          wg? := none, emailConfigured := false,
          mappings := [("alice", ["vm-alice"])], snapshotName? := none } =
      (Except.ok (),
       [OrchAction.restoreVM "vm-alice", OrchAction.rotatePassword "alice"]) ∧
    FilterActiveEvents (fun _ => none) ([] : List CalEvent) 0 = [] :=
  ⟨rfl, rfl⟩

/-- Witness for C4 (amended): empty inventory and no bookings — Done with
nothing performed. -/
theorem run_terminal_states_witness :
    Run { listVMs := Except.ok [], listEvents := Except.ok [],
          parse := fun _ => none, now := 0,
          vmware := { hostResult := Except.ok (),
                      restoreResult := fun _ _ => Except.ok (),
                      rotateResult := fun _ => Except.ok "pw" },
          wg? := none, emailConfigured := false,
          mappings := [], snapshotName? := none } = (Except.ok (), []) :=
  (run_terminal_states
    { listVMs := Except.ok [], listEvents := Except.ok [],
      parse := fun _ => none, now := 0,
      vmware := { hostResult := Except.ok (),
                  restoreResult := fun _ _ => Except.ok (),
                  rotateResult := fun _ => Except.ok "pw" },
      wg? := none, emailConfigured := false,
      mappings := [], snapshotName? := none } [] [] rfl rfl).1 rfl rfl

/-- C5 (code evaluation at the failing input): with the claim's exact
inputs — mappings alice to vm-alice and bob to vm-bob, inventory
vm-alice and vm-extra, booking count 2 — the selection returns only
(alice, vm-alice).  No unclaimed inventory machine is appended with an
empty user (the package's own tests expect ("", vm-extra) as a second
entry), and `SelectAllVMs` likewise returns only configured pairs. -/
theorem selectVMsToRestore_has_no_fallback :
    SelectVMsToRestore [("alice", ["vm-alice"]), ("bob", ["vm-bob"])]
      [{ name := "vm-alice" }, { name := "vm-extra" }] 2 =
      [{ User := "alice", VMs := ["vm-alice"] }] ∧
    SelectVMsToRestore [("alice", ["vm-alice"]), ("bob", ["vm-bob"])]
      [{ name := "vm-alice" }, { name := "vm-extra" }] 2 ≠
      [{ User := "alice", VMs := ["vm-alice"] }, { User := "", VMs := ["vm-extra"] }] ∧
    SelectAllVMs [("alice", ["vm-alice"]), ("bob", ["vm-bob"])]
      [{ name := "vm-alice" }, { name := "vm-extra" }] =
      [{ User := "alice", VMs := ["vm-alice"] }] :=
  ⟨by decide, by decide, by decide⟩

end EsxiLab
